import Mathlib

/-!
Verification of the jitter buffer in src/aiortc/jitterbuffer.py.

The Python module implements a fixed-capacity reorder window buffer:
packets carry a sequence number and a timestamp, are stored in a circular
slot array indexed by sequence number modulo the capacity, and complete
frames (maximal runs of contiguous packets sharing a timestamp) are
extracted as soon as a frame boundary is visible.

The embedding below is a direct translation of the source:
sequence numbers, timestamps and the origin are Python ints, modelled as
Int; the slot array is a List of optional packets; the fallible
operations (the constructor with its power-of-two assertion, and the
public remove with its count assertion and its use of the possibly-None
origin) return Option.
-/

/-- Packet record, mirroring the fields of RtpPacket that the jitter
buffer reads: sequence_number, timestamp, ntp_timestamp, rtp_diff and the
raw payload field named by the source. Payload bytes are modelled as a
list of naturals. -/
structure RtpPacket where
  sequence_number : Int
  timestamp : Int
  ntp_timestamp : Int
  rtp_diff : Int
  _data : List Nat
deriving Repr, DecidableEq

/-- JitterFrame from the source: concatenated payload data, the list of
contributing packets, and the timestamp fields copied from the first
contributing packet. -/
structure JitterFrame where
  data : List Nat
  packets : List RtpPacket
  timestamp : Int
  ntp_timestamp : Int
  rtp_diff : Int
deriving Repr, DecidableEq

/-- Module constant MAX_MISORDER = 100. -/
def MAX_MISORDER : Int := 100

/-- The mutable state of class JitterBuffer: _capacity, _origin,
_packets and _prefetch. -/
structure JitterBuffer where
  capacity : Nat
  origin : Option Int
  packets : List (Option RtpPacket)
  prefetch : Nat
deriving Repr, DecidableEq

/-- JitterBuffer.__init__: asserts that capacity is a power of two via
the idiom capacity AND (capacity - 1) == 0 (for a Nat argument the
subtraction 0 - 1 truncates to 0, exactly as the Python expression
0 and -1 evaluates to 0, so capacity 0 passes the check in both).
All slots start empty and the origin starts unset. -/
def jitterBufferNew (capacity : Nat) (prefetch : Nat) : Option JitterBuffer :=
  if capacity &&& (capacity - 1) == 0 then
    some { capacity := capacity, origin := none,
           packets := List.replicate capacity none, prefetch := prefetch }
  else
    none

/-- The loop body of JitterBuffer.remove, after its assertion: clear
count slots starting at the origin, advancing the origin by one per
cleared slot. The source only ever runs this loop with the origin set;
if the origin is unset Python would raise, and the unset branch here is
never reached from the operations below. -/
def JitterBuffer.removeCore (buf : JitterBuffer) (count : Nat) : JitterBuffer :=
  match count with
  | 0 => buf
  | n + 1 =>
    match buf.origin with
    | none => buf
    | some o =>
      JitterBuffer.removeCore
        { buf with
          packets := buf.packets.set (o % (buf.capacity : Int)).toNat none,
          origin := some (o + 1) }
        n

/-- JitterBuffer.remove: the assertion count <= capacity fails for a
larger count; with count >= 1 and the origin still unset, the loop body
evaluates None modulo an int, which raises; a zero count never enters
the loop and is a no-op. -/
def JitterBuffer.remove (buf : JitterBuffer) (count : Nat) : Option JitterBuffer :=
  if count ≤ buf.capacity then
    if count = 0 then
      some buf
    else
      match buf.origin with
      | none => none
      | some _ => some (buf.removeCore count)
  else
    none

/-- The scanning loop of JitterBuffer._remove_frame. Arguments mirror
the local variables of the source: o is the (fixed) origin, count the
loop index, frame the first materialized frame, frames the number of
closed groups, packets the current group, removeCount the slot count of
the held frame, timestamp the current group timestamp (None before the
first packet), ntp_timestamp and rtp_diff the values taken from the
first scanned packet. fuel is the number of remaining loop iterations,
initially the capacity. -/
def JitterBuffer.scanFrames (buf : JitterBuffer) (o : Int) (count : Nat)
    (frame : Option JitterFrame) (frames : Nat) (packets : List RtpPacket)
    (removeCount : Nat) (timestamp : Option Int) (ntp_timestamp : Int)
    (rtp_diff : Int) (fuel : Nat) : JitterBuffer × Option JitterFrame :=
  match fuel with
  | 0 => (buf, none)
  | fuel + 1 =>
    match buf.packets.getD ((o + (count : Int)) % (buf.capacity : Int)).toNat none with
    | none => (buf, none)
    | some packet =>
      match timestamp with
      | none =>
        buf.scanFrames o (count + 1) frame frames (packets ++ [packet])
          removeCount (some packet.timestamp) packet.ntp_timestamp
          packet.rtp_diff fuel
      | some ts =>
        if packet.timestamp ≠ ts then
          let frameRemove : Option JitterFrame × Nat :=
            match frame with
            | none =>
              (some { data := (packets.map (fun x => x._data)).flatten,
                      timestamp := ts,
                      ntp_timestamp := ntp_timestamp,
                      packets := packets,
                      rtp_diff := rtp_diff }, count)
            | some f => (some f, removeCount)
          if frames + 1 ≥ buf.prefetch then
            (buf.removeCore frameRemove.2, frameRemove.1)
          else
            buf.scanFrames o (count + 1) frameRemove.1 (frames + 1)
              [packet] frameRemove.2 (some packet.timestamp)
              ntp_timestamp rtp_diff fuel
        else
          buf.scanFrames o (count + 1) frame frames (packets ++ [packet])
            removeCount (some ts) ntp_timestamp rtp_diff fuel

/-- JitterBuffer._remove_frame. The sequence_number argument is unused,
as in the source. The callers always have the origin set; the unset
branch is unreachable from add. The final self.remove call of the loop
happens with the origin set and a count below the capacity, so it is
the loop body removeCore. -/
def JitterBuffer.removeFrame (buf : JitterBuffer) (sequence_number : Int) :
    JitterBuffer × Option JitterFrame :=
  match buf.origin with
  | none => (buf, none)
  | some o => buf.scanFrames o 0 none 0 [] 0 none 0 0 buf.capacity

/-- Step 2 of JitterBuffer.add, fitting the packet inside the capacity:
with delta = sequence_number - origin, a delta of at least twice the
capacity flushes the whole window (self.remove(self.capacity), with the
origin set and the count equal to the capacity, is removeCore) and
re-originates at the packet; a delta of at least the capacity evicts
exactly delta - capacity + 1 of the oldest slots. -/
def JitterBuffer.fitPacket (buf : JitterBuffer) (o : Int) (packet : RtpPacket) :
    JitterBuffer :=
  let delta := packet.sequence_number - o
  if delta ≥ 2 * (buf.capacity : Int) then
    { buf.removeCore buf.capacity with origin := some packet.sequence_number }
  else if delta ≥ (buf.capacity : Int) then
    buf.removeCore (delta - (buf.capacity : Int) + 1).toNat
  else
    buf

/-- The tail of JitterBuffer.add after step 1: fit the packet within
capacity, store it at sequence_number modulo capacity, and attempt
frame extraction. The origin is always set on entry; the unset branch
is unreachable. -/
def JitterBuffer.addFitted (buf : JitterBuffer) (packet : RtpPacket) :
    JitterBuffer × Option JitterFrame :=
  match buf.origin with
  | none => (buf, none)
  | some o =>
    let buf1 := buf.fitPacket o packet
    let pos := (packet.sequence_number % (buf1.capacity : Int)).toNat
    let buf2 := { buf1 with packets := buf1.packets.set pos (some packet) }
    buf2.removeFrame packet.sequence_number

/-- JitterBuffer.add. Step 1 establishes or advances the origin: an
unset origin is set to the packet sequence number; a sequence number at
or below origin - MAX_MISORDER flushes the window (self.remove of the
full capacity, with the origin set, is removeCore) and re-originates;
any other sequence number below the origin is dropped, returning
nothing and leaving the state untouched. -/
def JitterBuffer.add (buf : JitterBuffer) (packet : RtpPacket) :
    JitterBuffer × Option JitterFrame :=
  match buf.origin with
  | none =>
    JitterBuffer.addFitted
      { buf with origin := some packet.sequence_number } packet
  | some o =>
    if packet.sequence_number ≤ o - MAX_MISORDER then
      JitterBuffer.addFitted
        { buf.removeCore buf.capacity with
          origin := some packet.sequence_number } packet
    else if packet.sequence_number < o then
      (buf, none)
    else
      JitterBuffer.addFitted buf packet

/-- Fold a list of packets through add, collecting the per-call
results. -/
def JitterBuffer.addAll (buf : JitterBuffer) (ps : List RtpPacket) :
    JitterBuffer × List (Option JitterFrame) :=
  match ps with
  | [] => (buf, [])
  | p :: rest =>
    let r := buf.add p
    let r2 := r.1.addAll rest
    (r2.1, r.2 :: r2.2)

/-! ### Concrete packets and buffers used in the testable properties -/

/-- Packet constructor helper. -/
def pkt (seq ts ntp diff : Int) (d : List Nat) : RtpPacket :=
  { sequence_number := seq, timestamp := ts, ntp_timestamp := ntp,
    rtp_diff := diff, _data := d }

/-- Packet 0 of the basic case: sequence 0, timestamp 1000. -/
def pkt0 : RtpPacket := pkt 0 1000 77 7 [10, 11]

/-- Packet 1 of the basic case: sequence 1, timestamp 1000. -/
def pkt1 : RtpPacket := pkt 1 1000 78 8 [12]

/-- Packet 2 of the basic case: sequence 2, timestamp 1000. -/
def pkt2 : RtpPacket := pkt 2 1000 79 9 [13, 14]

/-- Packet 3 of the basic case: sequence 3, timestamp 2000. -/
def pkt3 : RtpPacket := pkt 3 2000 80 5 [15]

/-- A packet with sequence number 100. -/
def pkt100 : RtpPacket := pkt 100 3000 81 6 [20]

/-- Packet with sequence 3 sharing timestamp 1000, for the gap
scenario in which packet 2 is missing. -/
def pkt3b : RtpPacket := pkt 3 1000 82 4 [16]

/-- Packet with sequence 4 sharing timestamp 1000, for the gap
scenario in which packet 2 is missing. -/
def pkt4b : RtpPacket := pkt 4 1000 83 2 [17]

/-- Fresh buffer with capacity 16 and prefetch 0. -/
def buf16 : JitterBuffer :=
  { capacity := 16, origin := none, packets := List.replicate 16 none,
    prefetch := 0 }

/-- Fresh buffer with capacity 16 and prefetch 1. -/
def buf16p1 : JitterBuffer := { buf16 with prefetch := 1 }

/-- Fresh buffer with capacity 16 and prefetch 2. -/
def buf16p2 : JitterBuffer := { buf16 with prefetch := 2 }

/-- The frame assembled from packets 0, 1 and 2 of the basic case. -/
def frame012 : JitterFrame :=
  { data := [10, 11, 12, 13, 14], packets := [pkt0, pkt1, pkt2],
    timestamp := 1000, ntp_timestamp := 77, rtp_diff := 7 }

/-- The frame assembled from packets 1 and 2 only, produced by the
reordered arrival 1,0,2,3 in which packet 0 is dropped. -/
def frame12 : JitterFrame :=
  { data := [12, 13, 14], packets := [pkt1, pkt2],
    timestamp := 1000, ntp_timestamp := 78, rtp_diff := 8 }

/-- Fresh buffer with capacity 8 and prefetch 0. -/
def buf8 : JitterBuffer :=
  { capacity := 8, origin := none, packets := List.replicate 8 none,
    prefetch := 0 }

/-- Packet with sequence 0, timestamp 100. -/
def a0 : RtpPacket := pkt 0 100 1 1 [0]

/-- Packet with sequence 2, timestamp 200. -/
def a2 : RtpPacket := pkt 2 200 2 2 [2]

/-- Packet with sequence 3, timestamp 300. -/
def a3 : RtpPacket := pkt 3 300 3 3 [3]

/-- Packet with sequence 4, timestamp 400. -/
def a4 : RtpPacket := pkt 4 400 4 4 [4]

/-- Packet with sequence 10, timestamp 500. -/
def a10 : RtpPacket := pkt 10 500 5 5 [5]

/-! ### The window invariant and reachable states -/

/-- The window invariant of the buffer: the slot array has exactly
capacity slots, and every stored packet lies in the live window
[origin, origin + capacity) and sits at the slot indexed by its
sequence number modulo the capacity. -/
def BufInv (buf : JitterBuffer) : Prop :=
  buf.packets.length = buf.capacity ∧
  ∀ i p, buf.packets.getD i none = some p →
    ∃ o, buf.origin = some o ∧
      o ≤ p.sequence_number ∧
      p.sequence_number < o + (buf.capacity : Int) ∧
      i = (p.sequence_number % (buf.capacity : Int)).toNat

/-- Two buffer states that agree on everything except possibly the
prefetch depth. -/
def SameState (a b : JitterBuffer) : Prop :=
  a.capacity = b.capacity ∧ a.origin = b.origin ∧ a.packets = b.packets

/-- The buffer states reachable through the public interface:
construction, add, and successful remove. -/
inductive Reachable : JitterBuffer → Prop
  | init (c pf : Nat) (buf : JitterBuffer)
      (h : jitterBufferNew c pf = some buf) : Reachable buf
  | add (buf : JitterBuffer) (p : RtpPacket) (h : Reachable buf) :
      Reachable (buf.add p).1
  | remove (buf : JitterBuffer) (n : Nat) (buf2 : JitterBuffer)
      (h : Reachable buf) (h2 : buf.remove n = some buf2) : Reachable buf2

/-- Packet with sequence 1 and timestamp 2000, closing the group of pkt0. -/
def pktB : RtpPacket := pkt 1 2000 90 3 [9]

/-- The single-packet frame emitted when pktB closes the group of pkt0. -/
def frameB : JitterFrame :=
  { data := [10, 11], packets := [pkt0], timestamp := 1000,
    ntp_timestamp := 77, rtp_diff := 7 }

/-- The buffer state after pkt0 and pktB have been added to a fresh
capacity-16 buffer with prefetch 0. -/
def bufB : JitterBuffer := ((buf16.add pkt0).1.add pktB).1

/-! ### Basic lemmas about removeCore -/

theorem getD_none_of_length_le {l : List (Option RtpPacket)} {i : Nat}
    (h : l.length ≤ i) : l.getD i none = none := by
  simp [List.getD_eq_getElem?_getD, List.getElem?_eq_none h]

theorem optGetD_set_self (l : List (Option RtpPacket)) (i : Nat)
    (a : Option RtpPacket) (h : i < l.length) :
    (l.set i a).getD i none = a := by
  simp [List.getD_eq_getElem?_getD, List.getElem?_set_self h]

theorem optGetD_set_ne (l : List (Option RtpPacket)) (i j : Nat)
    (a : Option RtpPacket) (h : i ≠ j) :
    (l.set i a).getD j none = l.getD j none := by
  simp [List.getD_eq_getElem?_getD, List.getElem?_set_ne h]

theorem removeCore_zero (buf : JitterBuffer) : buf.removeCore 0 = buf := rfl

theorem removeCore_succ_none (buf : JitterBuffer) (n : Nat)
    (h : buf.origin = none) : buf.removeCore (n + 1) = buf := by
  conv_lhs => rw [JitterBuffer.removeCore.eq_def]
  rw [h]

theorem removeCore_succ_some (buf : JitterBuffer) (n : Nat) (o : Int)
    (h : buf.origin = some o) :
    buf.removeCore (n + 1) =
      JitterBuffer.removeCore
        { buf with
          packets := buf.packets.set (o % (buf.capacity : Int)).toNat none,
          origin := some (o + 1) } n := by
  conv_lhs => rw [JitterBuffer.removeCore.eq_def]
  rw [h]

theorem removeCore_capacity (buf : JitterBuffer) (n : Nat) :
    (buf.removeCore n).capacity = buf.capacity := by
  induction n generalizing buf with
  | zero => rfl
  | succ n ih =>
    cases h : buf.origin with
    | none => rw [removeCore_succ_none buf n h]
    | some o => rw [removeCore_succ_some buf n o h, ih]

theorem removeCore_prefetch (buf : JitterBuffer) (n : Nat) :
    (buf.removeCore n).prefetch = buf.prefetch := by
  induction n generalizing buf with
  | zero => rfl
  | succ n ih =>
    cases h : buf.origin with
    | none => rw [removeCore_succ_none buf n h]
    | some o => rw [removeCore_succ_some buf n o h, ih]

theorem removeCore_length (buf : JitterBuffer) (n : Nat) :
    (buf.removeCore n).packets.length = buf.packets.length := by
  induction n generalizing buf with
  | zero => rfl
  | succ n ih =>
    cases h : buf.origin with
    | none => rw [removeCore_succ_none buf n h]
    | some o => rw [removeCore_succ_some buf n o h, ih, List.length_set]

theorem removeCore_origin (buf : JitterBuffer) (n : Nat) (o : Int)
    (h : buf.origin = some o) :
    (buf.removeCore n).origin = some (o + n) := by
  induction n generalizing buf o with
  | zero => rw [removeCore_zero, h]; simp
  | succ n ih =>
    rw [removeCore_succ_some buf n o h, ih _ (o + 1) rfl]
    congr 1
    push_cast
    ring

theorem removeCore_getD_some (buf : JitterBuffer) (n : Nat) (i : Nat)
    (p : RtpPacket)
    (h : (buf.removeCore n).packets.getD i none = some p) :
    buf.packets.getD i none = some p := by
  induction n generalizing buf with
  | zero => exact h
  | succ n ih =>
    cases ho : buf.origin with
    | none => rw [removeCore_succ_none buf n ho] at h; exact h
    | some o =>
      rw [removeCore_succ_some buf n o ho] at h
      have h2 := ih _ h
      by_cases hij : (o % (buf.capacity : Int)).toNat = i
      · by_cases hlen : i < buf.packets.length
        · rw [hij, optGetD_set_self _ _ _ (hij ▸ hlen)] at h2
          exact absurd h2 (by simp)
        · rw [getD_none_of_length_le (i := i) (by omega)]
          rw [getD_none_of_length_le (i := i)
            (by rw [List.length_set]; omega)] at h2
          exact h2
      · rw [optGetD_set_ne _ _ _ _ hij] at h2
        exact h2

theorem removeCore_getD_none (buf : JitterBuffer) (n : Nat) (i : Nat)
    (h : buf.packets.getD i none = none) :
    (buf.removeCore n).packets.getD i none = none := by
  cases h2 : (buf.removeCore n).packets.getD i none with
  | none => rfl
  | some p => rw [removeCore_getD_some buf n i p h2] at h; exact absurd h (by simp)

theorem removeCore_getD_cleared (buf : JitterBuffer) (n : Nat) (o : Int)
    (j : Nat) (ho : buf.origin = some o) (hj : j < n) :
    (buf.removeCore n).packets.getD
      ((o + (j : Int)) % (buf.capacity : Int)).toNat none = none := by
  induction n generalizing buf o j with
  | zero => omega
  | succ n ih =>
    rw [removeCore_succ_some buf n o ho]
    cases j with
    | zero =>
      apply removeCore_getD_none
      simp only [Nat.cast_zero, add_zero]
      by_cases hlen : (o % (buf.capacity : Int)).toNat < buf.packets.length
      · exact optGetD_set_self _ _ _ hlen
      · exact getD_none_of_length_le (by rw [List.length_set]; omega)
    | succ j =>
      have heq : o + ((j + 1 : Nat) : Int) = (o + 1) + (j : Int) := by
        push_cast
        ring
      rw [heq]
      exact ih _ (o + 1) j rfl (by omega)

theorem removeCore_getD_other (buf : JitterBuffer) (n : Nat) (o : Int)
    (i : Nat) (ho : buf.origin = some o)
    (h : ∀ j : Nat, j < n → i ≠ ((o + (j : Int)) % (buf.capacity : Int)).toNat) :
    (buf.removeCore n).packets.getD i none = buf.packets.getD i none := by
  induction n generalizing buf o with
  | zero => rfl
  | succ n ih =>
    have hrest : ∀ j : Nat, j < n →
        i ≠ (((o + 1) + (j : Int)) % (buf.capacity : Int)).toNat := by
      intro j hj
      have h2 := h (j + 1) (by omega)
      have heq : o + ((j + 1 : Nat) : Int) = (o + 1) + (j : Int) := by
        push_cast
        ring
      rw [heq] at h2
      exact h2
    rw [removeCore_succ_some buf n o ho]
    rw [ih { buf with
          packets := buf.packets.set (o % (buf.capacity : Int)).toNat none,
          origin := some (o + 1) } (o + 1) rfl hrest]
    have h0 := h 0 (by omega)
    apply optGetD_set_ne
    simp only [Nat.cast_zero, add_zero] at h0
    omega

theorem removeCore_flush (buf : JitterBuffer) (o : Int)
    (hinv : BufInv buf) (ho : buf.origin = some o) (i : Nat) :
    (buf.removeCore buf.capacity).packets.getD i none = none := by
  cases hsome : (buf.removeCore buf.capacity).packets.getD i none with
  | none => rfl
  | some p =>
    exfalso
    have hold := removeCore_getD_some _ _ _ _ hsome
    obtain ⟨hlen, hslots⟩ := hinv
    obtain ⟨o2, ho2, hlb, hub, hidx⟩ := hslots i p hold
    rw [ho] at ho2
    injection ho2 with ho2
    subst ho2
    have hj0 : 0 ≤ p.sequence_number - o := by omega
    have hjlt : p.sequence_number - o < (buf.capacity : Int) := by omega
    set j := (p.sequence_number - o).toNat with hjdef
    have hoj : o + (j : Int) = p.sequence_number := by
      rw [hjdef, Int.toNat_of_nonneg hj0]
      ring
    have hjcap : j < buf.capacity := by
      rw [hjdef]
      exact (Int.toNat_lt hj0).mpr hjlt
    have hcl := removeCore_getD_cleared buf buf.capacity o j ho hjcap
    rw [hoj] at hcl
    rw [hidx] at hsome
    rw [hcl] at hsome
    exact absurd hsome (by simp)

theorem bufInv_removeCore (buf : JitterBuffer) (n : Nat) (o : Int)
    (hinv : BufInv buf) (ho : buf.origin = some o) :
    BufInv (buf.removeCore n) := by
  obtain ⟨hlen, hslots⟩ := hinv
  refine ⟨by rw [removeCore_length, removeCore_capacity, hlen], ?_⟩
  intro i p hget
  have hold := removeCore_getD_some _ _ _ _ hget
  obtain ⟨o2, ho2, hlb, hub, hidx⟩ := hslots i p hold
  rw [ho] at ho2
  injection ho2 with ho2
  subst ho2
  refine ⟨o + n, removeCore_origin buf n o ho, ?_, ?_, ?_⟩
  · by_contra hlt
    push_neg at hlt
    have hj0 : 0 ≤ p.sequence_number - o := by omega
    set j := (p.sequence_number - o).toNat with hjdef
    have hoj : o + (j : Int) = p.sequence_number := by
      rw [hjdef, Int.toNat_of_nonneg hj0]
      ring
    have hjn : j < n := by
      rw [hjdef]
      exact (Int.toNat_lt hj0).mpr (by omega)
    have hcl := removeCore_getD_cleared buf n o j ho hjn
    rw [hoj] at hcl
    rw [hidx] at hget
    rw [hcl] at hget
    exact absurd hget (by simp)
  · rw [removeCore_capacity]
    omega
  · rw [removeCore_capacity]
    exact hidx

theorem bufInv_remove (buf buf2 : JitterBuffer) (n : Nat)
    (hinv : BufInv buf) (h : buf.remove n = some buf2) : BufInv buf2 := by
  by_cases h1 : n ≤ buf.capacity
  · simp only [JitterBuffer.remove, if_pos h1] at h
    by_cases h2 : n = 0
    · rw [if_pos h2] at h
      injection h with h
      rw [← h]
      exact hinv
    · rw [if_neg h2] at h
      cases ho : buf.origin with
      | none =>
        rw [ho] at h
        exact absurd h (by simp)
      | some o =>
        rw [ho] at h
        injection h with h
        rw [← h]
        exact bufInv_removeCore _ _ _ hinv ho
  · simp only [JitterBuffer.remove, if_neg h1] at h
    exact absurd h (by simp)

/-! ### Step equations for the scanning loop -/

theorem scanFrames_zero (buf : JitterBuffer) (o : Int) (count : Nat)
    (frame : Option JitterFrame) (frames : Nat) (packets : List RtpPacket)
    (removeCount : Nat) (timestamp : Option Int) (ntp df : Int) :
    buf.scanFrames o count frame frames packets removeCount timestamp ntp df 0 =
      (buf, none) := rfl

theorem scanFrames_succ_empty (buf : JitterBuffer) (o : Int) (count : Nat)
    (frame : Option JitterFrame) (frames : Nat) (packets : List RtpPacket)
    (removeCount : Nat) (timestamp : Option Int) (ntp df : Int) (fuel : Nat)
    (hpk : buf.packets.getD
      ((o + (count : Int)) % (buf.capacity : Int)).toNat none = none) :
    buf.scanFrames o count frame frames packets removeCount timestamp ntp df
      (fuel + 1) = (buf, none) := by
  conv_lhs => rw [JitterBuffer.scanFrames.eq_def]
  simp only [hpk]

theorem scanFrames_succ_first (buf : JitterBuffer) (o : Int) (count : Nat)
    (frame : Option JitterFrame) (frames : Nat) (packets : List RtpPacket)
    (removeCount : Nat) (ntp df : Int) (fuel : Nat) (packet : RtpPacket)
    (hpk : buf.packets.getD
      ((o + (count : Int)) % (buf.capacity : Int)).toNat none = some packet) :
    buf.scanFrames o count frame frames packets removeCount none ntp df
      (fuel + 1) =
    buf.scanFrames o (count + 1) frame frames (packets ++ [packet])
      removeCount (some packet.timestamp) packet.ntp_timestamp
      packet.rtp_diff fuel := by
  conv_lhs => rw [JitterBuffer.scanFrames.eq_def]
  simp only [hpk]

theorem scanFrames_succ_same (buf : JitterBuffer) (o : Int) (count : Nat)
    (frame : Option JitterFrame) (frames : Nat) (packets : List RtpPacket)
    (removeCount : Nat) (ts ntp df : Int) (fuel : Nat) (packet : RtpPacket)
    (hpk : buf.packets.getD
      ((o + (count : Int)) % (buf.capacity : Int)).toNat none = some packet)
    (hts : packet.timestamp = ts) :
    buf.scanFrames o count frame frames packets removeCount (some ts) ntp df
      (fuel + 1) =
    buf.scanFrames o (count + 1) frame frames (packets ++ [packet])
      removeCount (some ts) ntp df fuel := by
  conv_lhs => rw [JitterBuffer.scanFrames.eq_def]
  simp only [hpk]
  rw [if_neg (by simp [hts])]

theorem scanFrames_succ_hit_new (buf : JitterBuffer) (o : Int) (count : Nat)
    (frames : Nat) (packets : List RtpPacket)
    (removeCount : Nat) (ts ntp df : Int) (fuel : Nat) (packet : RtpPacket)
    (hpk : buf.packets.getD
      ((o + (count : Int)) % (buf.capacity : Int)).toNat none = some packet)
    (hts : packet.timestamp ≠ ts) (hpf : frames + 1 ≥ buf.prefetch) :
    buf.scanFrames o count none frames packets removeCount (some ts) ntp df
      (fuel + 1) =
    (buf.removeCore count,
      some { data := (packets.map (fun x => x._data)).flatten,
             timestamp := ts, ntp_timestamp := ntp,
             packets := packets, rtp_diff := df }) := by
  conv_lhs => rw [JitterBuffer.scanFrames.eq_def]
  simp only [hpk]
  rw [if_pos hts, if_pos hpf]

theorem scanFrames_succ_hit_old (buf : JitterBuffer) (o : Int) (count : Nat)
    (f : JitterFrame) (frames : Nat) (packets : List RtpPacket)
    (removeCount : Nat) (ts ntp df : Int) (fuel : Nat) (packet : RtpPacket)
    (hpk : buf.packets.getD
      ((o + (count : Int)) % (buf.capacity : Int)).toNat none = some packet)
    (hts : packet.timestamp ≠ ts) (hpf : frames + 1 ≥ buf.prefetch) :
    buf.scanFrames o count (some f) frames packets removeCount (some ts) ntp df
      (fuel + 1) = (buf.removeCore removeCount, some f) := by
  conv_lhs => rw [JitterBuffer.scanFrames.eq_def]
  simp only [hpk]
  rw [if_pos hts, if_pos hpf]

theorem scanFrames_succ_miss_new (buf : JitterBuffer) (o : Int) (count : Nat)
    (frames : Nat) (packets : List RtpPacket)
    (removeCount : Nat) (ts ntp df : Int) (fuel : Nat) (packet : RtpPacket)
    (hpk : buf.packets.getD
      ((o + (count : Int)) % (buf.capacity : Int)).toNat none = some packet)
    (hts : packet.timestamp ≠ ts) (hpf : ¬ (frames + 1 ≥ buf.prefetch)) :
    buf.scanFrames o count none frames packets removeCount (some ts) ntp df
      (fuel + 1) =
    buf.scanFrames o (count + 1)
      (some { data := (packets.map (fun x => x._data)).flatten,
              timestamp := ts, ntp_timestamp := ntp,
              packets := packets, rtp_diff := df })
      (frames + 1) [packet] count (some packet.timestamp) ntp df fuel := by
  conv_lhs => rw [JitterBuffer.scanFrames.eq_def]
  simp only [hpk]
  rw [if_pos hts, if_neg hpf]

theorem scanFrames_succ_miss_old (buf : JitterBuffer) (o : Int) (count : Nat)
    (f : JitterFrame) (frames : Nat) (packets : List RtpPacket)
    (removeCount : Nat) (ts ntp df : Int) (fuel : Nat) (packet : RtpPacket)
    (hpk : buf.packets.getD
      ((o + (count : Int)) % (buf.capacity : Int)).toNat none = some packet)
    (hts : packet.timestamp ≠ ts) (hpf : ¬ (frames + 1 ≥ buf.prefetch)) :
    buf.scanFrames o count (some f) frames packets removeCount (some ts) ntp df
      (fuel + 1) =
    buf.scanFrames o (count + 1) (some f) (frames + 1) [packet] removeCount
      (some packet.timestamp) ntp df fuel := by
  conv_lhs => rw [JitterBuffer.scanFrames.eq_def]
  simp only [hpk]
  rw [if_pos hts, if_neg hpf]

/-! ### Shape of the scanning loop result and invariant preservation -/

theorem scanFrames_shape (buf : JitterBuffer) (o : Int) (fuel : Nat) :
    ∀ (count : Nat) (frame : Option JitterFrame) (frames : Nat)
      (packets : List RtpPacket) (removeCount : Nat)
      (timestamp : Option Int) (ntp df : Int),
      buf.scanFrames o count frame frames packets removeCount timestamp
          ntp df fuel = (buf, none) ∨
      ∃ r f, buf.scanFrames o count frame frames packets removeCount timestamp
          ntp df fuel = (buf.removeCore r, some f) := by
  induction fuel with
  | zero =>
    intro count frame frames packets removeCount timestamp ntp df
    left
    rfl
  | succ fuel ih =>
    intro count frame frames packets removeCount timestamp ntp df
    cases hpk : buf.packets.getD
        ((o + (count : Int)) % (buf.capacity : Int)).toNat none with
    | none =>
      left
      exact scanFrames_succ_empty buf o count frame frames packets removeCount
        timestamp ntp df fuel hpk
    | some packet =>
      cases timestamp with
      | none =>
        rw [scanFrames_succ_first buf o count frame frames packets removeCount
          ntp df fuel packet hpk]
        exact ih (count + 1) frame frames (packets ++ [packet]) removeCount
          (some packet.timestamp) packet.ntp_timestamp packet.rtp_diff
      | some ts =>
        by_cases hts : packet.timestamp = ts
        · rw [scanFrames_succ_same buf o count frame frames packets removeCount
            ts ntp df fuel packet hpk hts]
          exact ih (count + 1) frame frames (packets ++ [packet]) removeCount
            (some ts) ntp df
        · by_cases hpf : frames + 1 ≥ buf.prefetch
          · cases frame with
            | none =>
              right
              exact ⟨count, _, scanFrames_succ_hit_new buf o count frames
                packets removeCount ts ntp df fuel packet hpk hts hpf⟩
            | some f =>
              right
              exact ⟨removeCount, f, scanFrames_succ_hit_old buf o count f
                frames packets removeCount ts ntp df fuel packet hpk hts hpf⟩
          · cases frame with
            | none =>
              rw [scanFrames_succ_miss_new buf o count frames packets
                removeCount ts ntp df fuel packet hpk hts hpf]
              exact ih (count + 1) _ (frames + 1) [packet] count
                (some packet.timestamp) ntp df
            | some f =>
              rw [scanFrames_succ_miss_old buf o count f frames packets
                removeCount ts ntp df fuel packet hpk hts hpf]
              exact ih (count + 1) (some f) (frames + 1) [packet] removeCount
                (some packet.timestamp) ntp df

theorem bufInv_scanFrames (buf : JitterBuffer) (o : Int)
    (hinv : BufInv buf) (ho : buf.origin = some o)
    (count : Nat) (frame : Option JitterFrame) (frames : Nat)
    (packets : List RtpPacket) (removeCount : Nat) (timestamp : Option Int)
    (ntp df : Int) (fuel : Nat) :
    BufInv ((buf.scanFrames o count frame frames packets removeCount timestamp
      ntp df fuel).1) := by
  rcases scanFrames_shape buf o fuel count frame frames packets removeCount
      timestamp ntp df with h | ⟨r, f, h⟩
  · rw [h]
    exact hinv
  · rw [h]
    exact bufInv_removeCore _ _ _ hinv ho

theorem removeFrame_none (buf : JitterBuffer) (s : Int)
    (ho : buf.origin = none) : buf.removeFrame s = (buf, none) := by
  unfold JitterBuffer.removeFrame
  rw [ho]

theorem removeFrame_some (buf : JitterBuffer) (s o : Int)
    (ho : buf.origin = some o) :
    buf.removeFrame s = buf.scanFrames o 0 none 0 [] 0 none 0 0 buf.capacity := by
  unfold JitterBuffer.removeFrame
  rw [ho]

theorem bufInv_removeFrame (buf : JitterBuffer) (s : Int) (hinv : BufInv buf) :
    BufInv ((buf.removeFrame s).1) := by
  cases ho : buf.origin with
  | none =>
    rw [removeFrame_none buf s ho]
    exact hinv
  | some o =>
    rw [removeFrame_some buf s o ho]
    exact bufInv_scanFrames buf o hinv ho 0 none 0 [] 0 none 0 0 buf.capacity

/-! ### Equations for fitPacket, addFitted and add -/

theorem fitPacket_eq_flush (buf : JitterBuffer) (o : Int) (p : RtpPacket)
    (h : 2 * (buf.capacity : Int) ≤ p.sequence_number - o) :
    buf.fitPacket o p =
      { buf.removeCore buf.capacity with origin := some p.sequence_number } := by
  unfold JitterBuffer.fitPacket
  rw [if_pos (by omega)]

theorem fitPacket_overflow (buf : JitterBuffer) (o : Int) (p : RtpPacket)
    (h1 : (buf.capacity : Int) ≤ p.sequence_number - o)
    (h2 : p.sequence_number - o < 2 * (buf.capacity : Int)) :
    buf.fitPacket o p =
      buf.removeCore
        (p.sequence_number - o - (buf.capacity : Int) + 1).toNat := by
  unfold JitterBuffer.fitPacket
  rw [if_neg (by omega), if_pos (by omega)]

theorem fitPacket_inwindow (buf : JitterBuffer) (o : Int) (p : RtpPacket)
    (h : p.sequence_number - o < (buf.capacity : Int)) :
    buf.fitPacket o p = buf := by
  unfold JitterBuffer.fitPacket
  rw [if_neg (by omega), if_neg (by omega)]

theorem addFitted_some (buf : JitterBuffer) (p : RtpPacket) (o : Int)
    (ho : buf.origin = some o) :
    buf.addFitted p =
      JitterBuffer.removeFrame
        { buf.fitPacket o p with
          packets := (buf.fitPacket o p).packets.set
            (p.sequence_number % ((buf.fitPacket o p).capacity : Int)).toNat
            (some p) }
        p.sequence_number := by
  unfold JitterBuffer.addFitted
  rw [ho]

theorem add_eq_none_origin (buf : JitterBuffer) (p : RtpPacket)
    (ho : buf.origin = none) :
    buf.add p =
      JitterBuffer.addFitted { buf with origin := some p.sequence_number } p := by
  unfold JitterBuffer.add
  rw [ho]

theorem add_eq_misorder (buf : JitterBuffer) (p : RtpPacket) (o : Int)
    (ho : buf.origin = some o)
    (h : p.sequence_number ≤ o - MAX_MISORDER) :
    buf.add p =
      JitterBuffer.addFitted
        { buf.removeCore buf.capacity with
          origin := some p.sequence_number } p := by
  unfold JitterBuffer.add
  rw [ho]
  dsimp only
  rw [if_pos h]

theorem add_eq_drop (buf : JitterBuffer) (p : RtpPacket) (o : Int)
    (ho : buf.origin = some o)
    (h1 : ¬ p.sequence_number ≤ o - MAX_MISORDER)
    (h2 : p.sequence_number < o) :
    buf.add p = (buf, none) := by
  unfold JitterBuffer.add
  rw [ho]
  dsimp only
  rw [if_neg h1, if_pos h2]

theorem add_eq_normal (buf : JitterBuffer) (p : RtpPacket) (o : Int)
    (ho : buf.origin = some o)
    (h1 : ¬ p.sequence_number ≤ o - MAX_MISORDER)
    (h2 : ¬ p.sequence_number < o) :
    buf.add p = buf.addFitted p := by
  unfold JitterBuffer.add
  rw [ho]
  dsimp only
  rw [if_neg h1, if_neg h2]

/-! ### Invariant preservation through add -/

theorem bufInv_store (buf : JitterBuffer) (p : RtpPacket) (o : Int)
    (hinv : BufInv buf) (ho : buf.origin = some o)
    (hlb : o ≤ p.sequence_number)
    (hub : p.sequence_number < o + (buf.capacity : Int)) :
    BufInv { buf with
      packets :=
        buf.packets.set (p.sequence_number % (buf.capacity : Int)).toNat
          (some p) } := by
  obtain ⟨hlen, hslots⟩ := hinv
  have hcpos : 0 < buf.capacity := by omega
  have hcne : (buf.capacity : Int) ≠ 0 := by
    exact_mod_cast Nat.pos_iff_ne_zero.mp hcpos
  have hmodnn : 0 ≤ p.sequence_number % (buf.capacity : Int) :=
    Int.emod_nonneg _ hcne
  have hmodlt : p.sequence_number % (buf.capacity : Int) < (buf.capacity : Int) :=
    Int.emod_lt_of_pos _ (by exact_mod_cast hcpos)
  constructor
  · show (buf.packets.set _ _).length = buf.capacity
    rw [List.length_set]
    exact hlen
  · intro i q hget
    have hget2 : (buf.packets.set
        (p.sequence_number % (buf.capacity : Int)).toNat (some p)).getD i none =
        some q := hget
    by_cases hi : i = (p.sequence_number % (buf.capacity : Int)).toNat
    · subst hi
      rw [optGetD_set_self _ _ _ (by rw [hlen]; omega)] at hget2
      injection hget2 with hget2
      subst hget2
      exact ⟨o, ho, hlb, hub, rfl⟩
    · rw [optGetD_set_ne _ _ _ _ (fun hh => hi hh.symm)] at hget2
      exact hslots i q hget2

theorem bufInv_set_out (buf : JitterBuffer) (i : Nat) (p : RtpPacket)
    (hinv : BufInv buf) (hge : buf.packets.length ≤ i) :
    BufInv { buf with packets := buf.packets.set i (some p) } := by
  rw [List.set_eq_of_length_le hge]
  exact hinv

theorem bufInv_reorigin_flush (buf : JitterBuffer) (o s : Int)
    (hinv : BufInv buf) (ho : buf.origin = some o) :
    BufInv { buf.removeCore buf.capacity with origin := some s } := by
  constructor
  · show (buf.removeCore buf.capacity).packets.length =
      (buf.removeCore buf.capacity).capacity
    rw [removeCore_length, removeCore_capacity]
    exact hinv.1
  · intro i p hget
    have hget2 : (buf.removeCore buf.capacity).packets.getD i none = some p :=
      hget
    rw [removeCore_flush buf o hinv ho i] at hget2
    exact absurd hget2 (by simp)

theorem bufInv_origin_of_none (buf : JitterBuffer) (s : Int)
    (hinv : BufInv buf) (ho : buf.origin = none) :
    BufInv { buf with origin := some s } := by
  obtain ⟨hlen, hslots⟩ := hinv
  refine ⟨hlen, ?_⟩
  intro i q hget
  have hget2 : buf.packets.getD i none = some q := hget
  obtain ⟨o2, ho2, _⟩ := hslots i q hget2
  rw [ho] at ho2
  exact absurd ho2 (by simp)

theorem bufInv_addFitted (buf : JitterBuffer) (p : RtpPacket) (o : Int)
    (hinv : BufInv buf) (ho : buf.origin = some o)
    (hlb : o ≤ p.sequence_number) :
    BufInv ((buf.addFitted p).1) := by
  rw [addFitted_some buf p o ho]
  apply bufInv_removeFrame
  by_cases hflush : 2 * (buf.capacity : Int) ≤ p.sequence_number - o
  · rw [fitPacket_eq_flush buf o p hflush]
    have hinv1 := bufInv_reorigin_flush buf o p.sequence_number hinv ho
    by_cases hc : buf.capacity = 0
    · apply bufInv_set_out _ _ _ hinv1
      show (buf.removeCore buf.capacity).packets.length ≤ _
      rw [removeCore_length, hinv.1, hc]
      omega
    · have hres := bufInv_store
        { buf.removeCore buf.capacity with origin := some p.sequence_number }
        p p.sequence_number hinv1 rfl (le_refl _) ?hub
      · exact hres
      case hub =>
        show p.sequence_number <
          p.sequence_number + ((buf.removeCore buf.capacity).capacity : Int)
        rw [removeCore_capacity]
        have : 0 < buf.capacity := Nat.pos_of_ne_zero hc
        omega
  · push_neg at hflush
    by_cases hover : (buf.capacity : Int) ≤ p.sequence_number - o
    · rw [fitPacket_overflow buf o p hover hflush]
      have hexc : (0 : Int) ≤ p.sequence_number - o - (buf.capacity : Int) + 1 := by
        omega
      have hcast :
          (((p.sequence_number - o - (buf.capacity : Int) + 1).toNat : Int)) =
            p.sequence_number - o - (buf.capacity : Int) + 1 :=
        Int.toNat_of_nonneg hexc
      have hinv1 := bufInv_removeCore buf
        (p.sequence_number - o - (buf.capacity : Int) + 1).toNat o hinv ho
      have ho1 := removeCore_origin buf
        (p.sequence_number - o - (buf.capacity : Int) + 1).toNat o ho
      apply bufInv_store _ p
        (o + (((p.sequence_number - o - (buf.capacity : Int) + 1).toNat : Int)))
        hinv1 ho1 ?_ ?_
      · omega
      · rw [removeCore_capacity]
        omega
    · push_neg at hover
      rw [fitPacket_inwindow buf o p hover]
      exact bufInv_store buf p o hinv ho hlb (by omega)

theorem bufInv_add (buf : JitterBuffer) (p : RtpPacket) (hinv : BufInv buf) :
    BufInv ((buf.add p).1) := by
  cases ho : buf.origin with
  | none =>
    rw [add_eq_none_origin buf p ho]
    exact bufInv_addFitted _ p p.sequence_number
      (bufInv_origin_of_none buf p.sequence_number hinv ho) rfl (le_refl _)
  | some o =>
    by_cases hmis : p.sequence_number ≤ o - MAX_MISORDER
    · rw [add_eq_misorder buf p o ho hmis]
      exact bufInv_addFitted _ p p.sequence_number
        (bufInv_reorigin_flush buf o p.sequence_number hinv ho) rfl (le_refl _)
    · by_cases hdrop : p.sequence_number < o
      · rw [add_eq_drop buf p o ho hmis hdrop]
        exact hinv
      · rw [add_eq_normal buf p o ho hmis hdrop]
        exact bufInv_addFitted buf p o hinv ho (by omega)

theorem bufInv_new (c pf : Nat) (buf : JitterBuffer)
    (h : jitterBufferNew c pf = some buf) : BufInv buf := by
  unfold jitterBufferNew at h
  split at h
  · injection h with h
    subst h
    refine ⟨by simp, ?_⟩
    intro i p hget
    have hget2 : (List.replicate c (none : Option RtpPacket)).getD i none =
        some p := hget
    rw [List.getD_eq_getElem?_getD, List.getElem?_replicate] at hget2
    split at hget2 <;> simp_all
  · exact absurd h (by simp)

theorem reachable_bufInv (buf : JitterBuffer) (h : Reachable buf) :
    BufInv buf := by
  induction h with
  | init c pf buf h => exact bufInv_new c pf buf h
  | add buf p h ih => exact bufInv_add buf p ih
  | remove buf n buf2 h h2 ih => exact bufInv_remove buf buf2 n ih h2

/-! ### Provenance of an emitted frame -/

theorem getD_some_lt_length {l : List (Option RtpPacket)} {i : Nat}
    {p : RtpPacket} (h : l.getD i none = some p) : i < l.length := by
  by_contra hge
  rw [getD_none_of_length_le (by omega)] at h
  exact absurd h (by simp)

theorem scanFrames_emits (buf : JitterBuffer) (o : Int) (fuel : Nat) :
    ∀ (count : Nat) (frame : Option JitterFrame) (frames : Nat)
      (packets : List RtpPacket) (removeCount : Nat)
      (timestamp : Option Int) (ntp df : Int) (b2 : JitterBuffer)
      (f : JitterFrame),
      count + fuel ≤ buf.capacity →
      removeCount ≤ count →
      (∀ f0, frame = some f0 → ∀ q ∈ f0.packets, ∃ j : Nat, j < removeCount ∧
        buf.packets.getD ((o + (j : Int)) % (buf.capacity : Int)).toNat none =
          some q) →
      (frame = none → ∀ q ∈ packets, ∃ j : Nat, j < count ∧
        buf.packets.getD ((o + (j : Int)) % (buf.capacity : Int)).toNat none =
          some q) →
      buf.scanFrames o count frame frames packets removeCount timestamp ntp df
        fuel = (b2, some f) →
      ∃ r : Nat, r < buf.capacity ∧ b2 = buf.removeCore r ∧
        ∀ q ∈ f.packets, ∃ j : Nat, j < r ∧
          buf.packets.getD ((o + (j : Int)) % (buf.capacity : Int)).toNat none =
            some q := by
  induction fuel with
  | zero =>
    intro count frame frames packets removeCount timestamp ntp df b2 f
      hcf hrc hfr hpre hres
    rw [scanFrames_zero] at hres
    rw [Prod.mk.injEq] at hres
    exact absurd hres.2 (by simp)
  | succ fuel ih =>
    intro count frame frames packets removeCount timestamp ntp df b2 f
      hcf hrc hfr hpre hres
    cases hget : buf.packets.getD
        ((o + (count : Int)) % (buf.capacity : Int)).toNat none with
    | none =>
      rw [scanFrames_succ_empty buf o count frame frames packets removeCount
        timestamp ntp df fuel hget] at hres
      rw [Prod.mk.injEq] at hres
      exact absurd hres.2 (by simp)
    | some packet =>
      have hext : frame = none → ∀ q ∈ packets ++ [packet],
          ∃ j : Nat, j < count + 1 ∧
            buf.packets.getD
              ((o + (j : Int)) % (buf.capacity : Int)).toNat none = some q := by
        intro hfn q hq
        rcases List.mem_append.mp hq with hq | hq
        · obtain ⟨j, hj, hjq⟩ := hpre hfn q hq
          exact ⟨j, by omega, hjq⟩
        · rw [List.mem_singleton] at hq
          subst hq
          exact ⟨count, by omega, hget⟩
      cases timestamp with
      | none =>
        rw [scanFrames_succ_first buf o count frame frames packets removeCount
          ntp df fuel packet hget] at hres
        exact ih (count + 1) frame frames (packets ++ [packet]) removeCount
          (some packet.timestamp) packet.ntp_timestamp packet.rtp_diff b2 f
          (by omega) (by omega) hfr hext hres
      | some ts =>
        by_cases hts : packet.timestamp = ts
        · rw [scanFrames_succ_same buf o count frame frames packets removeCount
            ts ntp df fuel packet hget hts] at hres
          exact ih (count + 1) frame frames (packets ++ [packet]) removeCount
            (some ts) ntp df b2 f (by omega) (by omega) hfr hext hres
        · by_cases hpf : frames + 1 ≥ buf.prefetch
          · cases frame with
            | none =>
              rw [scanFrames_succ_hit_new buf o count frames packets
                removeCount ts ntp df fuel packet hget hts hpf] at hres
              rw [Prod.mk.injEq] at hres
              obtain ⟨h1, h2⟩ := hres
              injection h2 with h2
              refine ⟨count, by omega, h1.symm, ?_⟩
              rw [← h2]
              intro q hq
              have hq2 : q ∈ packets := hq
              exact hpre rfl q hq2
            | some f0 =>
              rw [scanFrames_succ_hit_old buf o count f0 frames packets
                removeCount ts ntp df fuel packet hget hts hpf] at hres
              rw [Prod.mk.injEq] at hres
              obtain ⟨h1, h2⟩ := hres
              injection h2 with h2
              refine ⟨removeCount, by omega, h1.symm, ?_⟩
              rw [← h2]
              exact hfr f0 rfl
          · cases frame with
            | none =>
              rw [scanFrames_succ_miss_new buf o count frames packets
                removeCount ts ntp df fuel packet hget hts hpf] at hres
              refine ih (count + 1)
                (some { data := (packets.map (fun x => x._data)).flatten,
                        timestamp := ts, ntp_timestamp := ntp,
                        packets := packets, rtp_diff := df })
                (frames + 1) [packet] count (some packet.timestamp) ntp df b2 f
                (by omega) (by omega) ?_ (fun h => nomatch h) hres
              intro f0 hf0 q hq
              injection hf0 with hf0
              rw [← hf0] at hq
              have hq2 : q ∈ packets := hq
              exact hpre rfl q hq2
            | some f0 =>
              rw [scanFrames_succ_miss_old buf o count f0 frames packets
                removeCount ts ntp df fuel packet hget hts hpf] at hres
              exact ih (count + 1) (some f0) (frames + 1) [packet] removeCount
                (some packet.timestamp) ntp df b2 f (by omega) (by omega)
                hfr (fun h => nomatch h) hres

theorem fitStore_facts (buf : JitterBuffer) (p : RtpPacket) (o : Int)
    (hinv : BufInv buf) (ho : buf.origin = some o)
    (hlb : o ≤ p.sequence_number) :
    ∃ o3 : Int,
      ({ buf.fitPacket o p with
         packets := (buf.fitPacket o p).packets.set
           (p.sequence_number % ((buf.fitPacket o p).capacity : Int)).toNat
           (some p) } : JitterBuffer).origin = some o3 ∧
      BufInv { buf.fitPacket o p with
        packets := (buf.fitPacket o p).packets.set
          (p.sequence_number % ((buf.fitPacket o p).capacity : Int)).toNat
          (some p) } := by
  by_cases hflush : 2 * (buf.capacity : Int) ≤ p.sequence_number - o
  · rw [fitPacket_eq_flush buf o p hflush]
    refine ⟨p.sequence_number, rfl, ?_⟩
    have hinv1 := bufInv_reorigin_flush buf o p.sequence_number hinv ho
    by_cases hc : buf.capacity = 0
    · apply bufInv_set_out _ _ _ hinv1
      show (buf.removeCore buf.capacity).packets.length ≤ _
      rw [removeCore_length, hinv.1, hc]
      omega
    · have hres := bufInv_store
        { buf.removeCore buf.capacity with origin := some p.sequence_number }
        p p.sequence_number hinv1 rfl (le_refl _) ?hub
      · exact hres
      case hub =>
        show p.sequence_number <
          p.sequence_number + ((buf.removeCore buf.capacity).capacity : Int)
        rw [removeCore_capacity]
        have : 0 < buf.capacity := Nat.pos_of_ne_zero hc
        omega
  · push_neg at hflush
    by_cases hover : (buf.capacity : Int) ≤ p.sequence_number - o
    · rw [fitPacket_overflow buf o p hover hflush]
      have hexc : (0 : Int) ≤ p.sequence_number - o - (buf.capacity : Int) + 1 := by
        omega
      have hcast :
          (((p.sequence_number - o - (buf.capacity : Int) + 1).toNat : Int)) =
            p.sequence_number - o - (buf.capacity : Int) + 1 :=
        Int.toNat_of_nonneg hexc
      have hinv1 := bufInv_removeCore buf
        (p.sequence_number - o - (buf.capacity : Int) + 1).toNat o hinv ho
      have ho1 := removeCore_origin buf
        (p.sequence_number - o - (buf.capacity : Int) + 1).toNat o ho
      refine ⟨o + (((p.sequence_number - o - (buf.capacity : Int) +
        1).toNat : Int)), ho1, ?_⟩
      apply bufInv_store _ p
        (o + (((p.sequence_number - o - (buf.capacity : Int) + 1).toNat : Int)))
        hinv1 ho1 ?_ ?_
      · omega
      · rw [removeCore_capacity]
        omega
    · push_neg at hover
      rw [fitPacket_inwindow buf o p hover]
      exact ⟨o, ho, bufInv_store buf p o hinv ho hlb (by omega)⟩

theorem addFitted_frame_window (buf : JitterBuffer) (p : RtpPacket) (o : Int)
    (hinv : BufInv buf) (ho : buf.origin = some o)
    (hlb : o ≤ p.sequence_number) (b2 : JitterBuffer) (f : JitterFrame)
    (hadd : buf.addFitted p = (b2, some f)) :
    ∃ o2 : Int, b2.origin = some o2 ∧
      ∀ q ∈ f.packets, q.sequence_number < o2 := by
  obtain ⟨o3, ho3, hinv3⟩ := fitStore_facts buf p o hinv ho hlb
  rw [addFitted_some buf p o ho] at hadd
  set buf3 : JitterBuffer :=
    { buf.fitPacket o p with
      packets := (buf.fitPacket o p).packets.set
        (p.sequence_number % ((buf.fitPacket o p).capacity : Int)).toNat
        (some p) } with hb3
  rw [removeFrame_some buf3 p.sequence_number o3 ho3] at hadd
  obtain ⟨r, hrlt, hb2, hprov⟩ := scanFrames_emits buf3 o3 buf3.capacity 0 none
    0 [] 0 none 0 0 b2 f (by omega) (le_refl 0) (fun f0 h => nomatch h)
    (fun _ q hq => absurd hq (List.not_mem_nil q)) hadd
  refine ⟨o3 + r, ?_, ?_⟩
  · rw [hb2]
    exact removeCore_origin buf3 r o3 ho3
  · intro q hq
    obtain ⟨j, hjr, hslot⟩ := hprov q hq
    have hlen := hinv3.1
    have hidxlt := getD_some_lt_length hslot
    have hcpos : 0 < buf3.capacity := by omega
    obtain ⟨o4, ho4, hqlb, hqub, hidx⟩ := hinv3.2 _ q hslot
    rw [ho3] at ho4
    injection ho4 with ho4
    subst ho4
    have hc0 : ((buf3.capacity : Int)) ≠ 0 := by
      exact_mod_cast Nat.pos_iff_ne_zero.mp hcpos
    have hnn1 : 0 ≤ (o3 + (j : Int)) % (buf3.capacity : Int) :=
      Int.emod_nonneg _ hc0
    have hnn2 : 0 ≤ q.sequence_number % (buf3.capacity : Int) :=
      Int.emod_nonneg _ hc0
    have hmodeq : (o3 + (j : Int)) % (buf3.capacity : Int) =
        q.sequence_number % (buf3.capacity : Int) := by
      omega
    have hsub : (q.sequence_number - o3) % (buf3.capacity : Int) =
        ((j : Int)) % (buf3.capacity : Int) := by
      conv_lhs => rw [Int.sub_emod]
      rw [← hmodeq, ← Int.sub_emod]
      congr 1
      ring
    have hjlt : (j : Int) < (buf3.capacity : Int) := by
      exact_mod_cast (by omega : j < buf3.capacity)
    rw [Int.emod_eq_of_lt (by omega) (by omega),
      Int.emod_eq_of_lt (by omega) hjlt] at hsub
    omega

theorem add_frame_window (buf : JitterBuffer) (p : RtpPacket)
    (hinv : BufInv buf) (b2 : JitterBuffer) (f : JitterFrame)
    (hadd : buf.add p = (b2, some f)) :
    ∃ o2 : Int, b2.origin = some o2 ∧
      ∀ q ∈ f.packets, q.sequence_number < o2 := by
  cases ho : buf.origin with
  | none =>
    rw [add_eq_none_origin buf p ho] at hadd
    exact addFitted_frame_window _ p p.sequence_number
      (bufInv_origin_of_none buf p.sequence_number hinv ho) rfl (le_refl _)
      b2 f hadd
  | some o =>
    by_cases hmis : p.sequence_number ≤ o - MAX_MISORDER
    · rw [add_eq_misorder buf p o ho hmis] at hadd
      exact addFitted_frame_window _ p p.sequence_number
        (bufInv_reorigin_flush buf o p.sequence_number hinv ho) rfl (le_refl _)
        b2 f hadd
    · by_cases hdrop : p.sequence_number < o
      · rw [add_eq_drop buf p o ho hmis hdrop] at hadd
        rw [Prod.mk.injEq] at hadd
        exact absurd hadd.2 (by simp)
      · rw [add_eq_normal buf p o ho hmis hdrop] at hadd
        exact addFitted_frame_window buf p o hinv ho (by omega) b2 f hadd

/-! ### The prefetch field is never modified -/

theorem scanFrames_result_prefetch (buf : JitterBuffer) (o : Int)
    (count : Nat) (frame : Option JitterFrame) (frames : Nat)
    (packets : List RtpPacket) (removeCount : Nat) (timestamp : Option Int)
    (ntp df : Int) (fuel : Nat) :
    ((buf.scanFrames o count frame frames packets removeCount timestamp ntp df
      fuel).1).prefetch = buf.prefetch := by
  rcases scanFrames_shape buf o fuel count frame frames packets removeCount
      timestamp ntp df with h | ⟨r, f, h⟩
  · rw [h]
  · rw [h]
    exact removeCore_prefetch buf r

theorem removeFrame_prefetch (buf : JitterBuffer) (s : Int) :
    ((buf.removeFrame s).1).prefetch = buf.prefetch := by
  cases ho : buf.origin with
  | none => rw [removeFrame_none buf s ho]
  | some o =>
    rw [removeFrame_some buf s o ho]
    exact scanFrames_result_prefetch buf o 0 none 0 [] 0 none 0 0 buf.capacity

theorem fitPacket_prefetch (buf : JitterBuffer) (o : Int) (p : RtpPacket) :
    (buf.fitPacket o p).prefetch = buf.prefetch := by
  by_cases h1 : 2 * (buf.capacity : Int) ≤ p.sequence_number - o
  · rw [fitPacket_eq_flush buf o p h1]
    exact removeCore_prefetch buf buf.capacity
  · push_neg at h1
    by_cases h2 : (buf.capacity : Int) ≤ p.sequence_number - o
    · rw [fitPacket_overflow buf o p h2 h1]
      exact removeCore_prefetch buf _
    · push_neg at h2
      rw [fitPacket_inwindow buf o p h2]

theorem addFitted_prefetch (buf : JitterBuffer) (p : RtpPacket) :
    ((buf.addFitted p).1).prefetch = buf.prefetch := by
  cases ho : buf.origin with
  | none =>
    have e : buf.addFitted p = (buf, none) := by
      unfold JitterBuffer.addFitted
      rw [ho]
    rw [e]
  | some o =>
    rw [addFitted_some buf p o ho, removeFrame_prefetch]
    exact fitPacket_prefetch buf o p

theorem add_prefetch (buf : JitterBuffer) (p : RtpPacket) :
    ((buf.add p).1).prefetch = buf.prefetch := by
  cases ho : buf.origin with
  | none =>
    rw [add_eq_none_origin buf p ho, addFitted_prefetch]
  | some o =>
    by_cases hmis : p.sequence_number ≤ o - MAX_MISORDER
    · rw [add_eq_misorder buf p o ho hmis, addFitted_prefetch]
      exact removeCore_prefetch buf buf.capacity
    · by_cases hdrop : p.sequence_number < o
      · rw [add_eq_drop buf p o ho hmis hdrop]
      · rw [add_eq_normal buf p o ho hmis hdrop, addFitted_prefetch]

/-! ### Prefetch 0 and prefetch 1 give identical behaviour -/

theorem sameState_removeCore (a b : JitterBuffer) (n : Nat)
    (h : SameState a b) : SameState (a.removeCore n) (b.removeCore n) := by
  induction n generalizing a b with
  | zero => exact h
  | succ n ih =>
    obtain ⟨hc, ho, hp⟩ := h
    cases hoa : a.origin with
    | none =>
      rw [removeCore_succ_none a n hoa,
        removeCore_succ_none b n (by rw [← ho]; exact hoa)]
      exact ⟨hc, ho, hp⟩
    | some o =>
      rw [removeCore_succ_some a n o hoa,
        removeCore_succ_some b n o (by rw [← ho]; exact hoa)]
      apply ih
      refine ⟨hc, rfl, ?_⟩
      show a.packets.set (o % (a.capacity : Int)).toNat none =
        b.packets.set (o % (b.capacity : Int)).toNat none
      rw [hp, hc]

theorem sameState_scanFrames (fuel : Nat) :
    ∀ (a b : JitterBuffer) (o : Int) (count : Nat)
      (frame : Option JitterFrame) (frames : Nat) (packets : List RtpPacket)
      (removeCount : Nat) (timestamp : Option Int) (ntp df : Int),
      SameState a b → a.prefetch ≤ 1 → b.prefetch ≤ 1 →
      (a.scanFrames o count frame frames packets removeCount timestamp ntp df
          fuel).2 =
        (b.scanFrames o count frame frames packets removeCount timestamp ntp df
          fuel).2 ∧
      SameState
        (a.scanFrames o count frame frames packets removeCount timestamp ntp df
          fuel).1
        (b.scanFrames o count frame frames packets removeCount timestamp ntp df
          fuel).1 := by
  induction fuel with
  | zero =>
    intro a b o count frame frames packets removeCount timestamp ntp df h _ _
    rw [scanFrames_zero, scanFrames_zero]
    exact ⟨rfl, h⟩
  | succ fuel ih =>
    intro a b o count frame frames packets removeCount timestamp ntp df h ha hb
    obtain ⟨hc, ho, hp⟩ := h
    cases hget : a.packets.getD
        ((o + (count : Int)) % (a.capacity : Int)).toNat none with
    | none =>
      have hgetb : b.packets.getD
          ((o + (count : Int)) % (b.capacity : Int)).toNat none = none := by
        rw [← hp, ← hc]
        exact hget
      rw [scanFrames_succ_empty a o count frame frames packets removeCount
        timestamp ntp df fuel hget,
        scanFrames_succ_empty b o count frame frames packets removeCount
        timestamp ntp df fuel hgetb]
      exact ⟨rfl, hc, ho, hp⟩
    | some packet =>
      have hgetb : b.packets.getD
          ((o + (count : Int)) % (b.capacity : Int)).toNat none = some packet := by
        rw [← hp, ← hc]
        exact hget
      cases timestamp with
      | none =>
        rw [scanFrames_succ_first a o count frame frames packets removeCount
          ntp df fuel packet hget,
          scanFrames_succ_first b o count frame frames packets removeCount
          ntp df fuel packet hgetb]
        exact ih a b o (count + 1) frame frames (packets ++ [packet])
          removeCount (some packet.timestamp) packet.ntp_timestamp
          packet.rtp_diff ⟨hc, ho, hp⟩ ha hb
      | some ts =>
        by_cases hts : packet.timestamp = ts
        · rw [scanFrames_succ_same a o count frame frames packets removeCount
            ts ntp df fuel packet hget hts,
            scanFrames_succ_same b o count frame frames packets removeCount
            ts ntp df fuel packet hgetb hts]
          exact ih a b o (count + 1) frame frames (packets ++ [packet])
            removeCount (some ts) ntp df ⟨hc, ho, hp⟩ ha hb
        · have hpfa : frames + 1 ≥ a.prefetch := by omega
          have hpfb : frames + 1 ≥ b.prefetch := by omega
          cases frame with
          | none =>
            rw [scanFrames_succ_hit_new a o count frames packets removeCount
              ts ntp df fuel packet hget hts hpfa,
              scanFrames_succ_hit_new b o count frames packets removeCount
              ts ntp df fuel packet hgetb hts hpfb]
            exact ⟨rfl, sameState_removeCore a b count ⟨hc, ho, hp⟩⟩
          | some f0 =>
            rw [scanFrames_succ_hit_old a o count f0 frames packets removeCount
              ts ntp df fuel packet hget hts hpfa,
              scanFrames_succ_hit_old b o count f0 frames packets removeCount
              ts ntp df fuel packet hgetb hts hpfb]
            exact ⟨rfl, sameState_removeCore a b removeCount ⟨hc, ho, hp⟩⟩

theorem sameState_fitPacket (a b : JitterBuffer) (o : Int) (p : RtpPacket)
    (h : SameState a b) : SameState (a.fitPacket o p) (b.fitPacket o p) := by
  obtain ⟨hc, ho, hp⟩ := h
  by_cases h1 : 2 * (a.capacity : Int) ≤ p.sequence_number - o
  · rw [fitPacket_eq_flush a o p h1,
      fitPacket_eq_flush b o p (by rw [← hc]; exact h1)]
    rw [hc]
    obtain ⟨hc2, ho2, hp2⟩ := sameState_removeCore a b b.capacity ⟨hc, ho, hp⟩
    exact ⟨hc2, rfl, hp2⟩
  · push_neg at h1
    by_cases h2 : (a.capacity : Int) ≤ p.sequence_number - o
    · rw [fitPacket_overflow a o p h2 h1,
        fitPacket_overflow b o p (by rw [← hc]; exact h2)
          (by rw [← hc]; exact h1)]
      rw [hc]
      exact sameState_removeCore a b _ ⟨hc, ho, hp⟩
    · push_neg at h2
      rw [fitPacket_inwindow a o p h2,
        fitPacket_inwindow b o p (by rw [← hc]; exact h2)]
      exact ⟨hc, ho, hp⟩

theorem sameState_removeFrame (a b : JitterBuffer) (s : Int)
    (h : SameState a b) (ha : a.prefetch ≤ 1) (hb : b.prefetch ≤ 1) :
    (a.removeFrame s).2 = (b.removeFrame s).2 ∧
    SameState (a.removeFrame s).1 (b.removeFrame s).1 := by
  obtain ⟨hc, ho, hp⟩ := h
  cases hoa : a.origin with
  | none =>
    rw [removeFrame_none a s hoa,
      removeFrame_none b s (by rw [← ho]; exact hoa)]
    exact ⟨rfl, hc, ho, hp⟩
  | some o =>
    rw [removeFrame_some a s o hoa,
      removeFrame_some b s o (by rw [← ho]; exact hoa), hc]
    exact sameState_scanFrames b.capacity a b o 0 none 0 [] 0 none 0 0
      ⟨hc, ho, hp⟩ ha hb

theorem sameState_addFitted (a b : JitterBuffer) (p : RtpPacket)
    (h : SameState a b) (ha : a.prefetch ≤ 1) (hb : b.prefetch ≤ 1) :
    (a.addFitted p).2 = (b.addFitted p).2 ∧
    SameState (a.addFitted p).1 (b.addFitted p).1 := by
  obtain ⟨hc, ho, hp⟩ := h
  cases hoa : a.origin with
  | none =>
    have hob : b.origin = none := by rw [← ho]; exact hoa
    have e1 : a.addFitted p = (a, none) := by
      unfold JitterBuffer.addFitted
      rw [hoa]
    have e2 : b.addFitted p = (b, none) := by
      unfold JitterBuffer.addFitted
      rw [hob]
    rw [e1, e2]
    exact ⟨rfl, hc, ho, hp⟩
  | some o =>
    have hob : b.origin = some o := by rw [← ho]; exact hoa
    rw [addFitted_some a p o hoa, addFitted_some b p o hob]
    apply sameState_removeFrame
    · obtain ⟨hc1, ho1, hp1⟩ := sameState_fitPacket a b o p ⟨hc, ho, hp⟩
      refine ⟨hc1, ho1, ?_⟩
      show (a.fitPacket o p).packets.set
          (p.sequence_number % ((a.fitPacket o p).capacity : Int)).toNat
          (some p) =
        (b.fitPacket o p).packets.set
          (p.sequence_number % ((b.fitPacket o p).capacity : Int)).toNat
          (some p)
      rw [hp1, hc1]
    · show (a.fitPacket o p).prefetch ≤ 1
      rw [fitPacket_prefetch]
      exact ha
    · show (b.fitPacket o p).prefetch ≤ 1
      rw [fitPacket_prefetch]
      exact hb

theorem sameState_add (a b : JitterBuffer) (p : RtpPacket)
    (h : SameState a b) (ha : a.prefetch ≤ 1) (hb : b.prefetch ≤ 1) :
    (a.add p).2 = (b.add p).2 ∧ SameState (a.add p).1 (b.add p).1 := by
  obtain ⟨hc, ho, hp⟩ := h
  cases hoa : a.origin with
  | none =>
    have hob : b.origin = none := by rw [← ho]; exact hoa
    rw [add_eq_none_origin a p hoa, add_eq_none_origin b p hob]
    exact sameState_addFitted _ _ p ⟨hc, rfl, hp⟩ ha hb
  | some o =>
    have hob : b.origin = some o := by rw [← ho]; exact hoa
    by_cases hmis : p.sequence_number ≤ o - MAX_MISORDER
    · rw [add_eq_misorder a p o hoa hmis, add_eq_misorder b p o hob hmis, hc]
      obtain ⟨hc2, ho2, hp2⟩ := sameState_removeCore a b b.capacity ⟨hc, ho, hp⟩
      refine sameState_addFitted _ _ p ⟨hc2, rfl, hp2⟩ ?_ ?_
      · show (a.removeCore b.capacity).prefetch ≤ 1
        rw [removeCore_prefetch]
        exact ha
      · show (b.removeCore b.capacity).prefetch ≤ 1
        rw [removeCore_prefetch]
        exact hb
    · by_cases hdrop : p.sequence_number < o
      · rw [add_eq_drop a p o hoa hmis hdrop, add_eq_drop b p o hob hmis hdrop]
        exact ⟨rfl, hc, ho, hp⟩
      · rw [add_eq_normal a p o hoa hmis hdrop,
          add_eq_normal b p o hob hmis hdrop]
        exact sameState_addFitted a b p ⟨hc, ho, hp⟩ ha hb

theorem sameState_addAll (ps : List RtpPacket) :
    ∀ (a b : JitterBuffer), SameState a b →
      a.prefetch ≤ 1 → b.prefetch ≤ 1 →
      (a.addAll ps).2 = (b.addAll ps).2 ∧
      SameState (a.addAll ps).1 (b.addAll ps).1 := by
  induction ps with
  | nil =>
    intro a b h _ _
    exact ⟨rfl, h⟩
  | cons p rest ih =>
    intro a b h ha hb
    obtain ⟨hfr, hst⟩ := sameState_add a b p h ha hb
    have ha2 : ((a.add p).1).prefetch ≤ 1 := by
      rw [add_prefetch]
      exact ha
    have hb2 : ((b.add p).1).prefetch ≤ 1 := by
      rw [add_prefetch]
      exact hb
    obtain ⟨hfr2, hst2⟩ := ih (a.add p).1 (b.add p).1 hst ha2 hb2
    constructor
    · show (a.add p).2 :: ((a.add p).1.addAll rest).2 =
        (b.add p).2 :: ((b.add p).1.addAll rest).2
      rw [hfr, hfr2]
    · show SameState ((a.add p).1.addAll rest).1 ((b.add p).1.addAll rest).1
      exact hst2

/-! ### The power-of-two check of the constructor -/

theorem land_two_mul (m : Nat) (hm : 1 ≤ m) :
    (2 * m) &&& (2 * m - 1) = 2 * (m &&& (m - 1)) := by
  apply Nat.eq_of_testBit_eq
  intro i
  cases i with
  | zero =>
    have e1 : 2 * m % 2 = 0 := by omega
    have e2 : 2 * (m &&& (m - 1)) % 2 = 0 := by omega
    rw [Nat.testBit_and]
    simp [Nat.testBit_zero, e1, e2]
  | succ i =>
    have h1 : 2 * m / 2 = m := by omega
    have h2 : (2 * m - 1) / 2 = m - 1 := by omega
    have h3 : 2 * (m &&& (m - 1)) / 2 = m &&& (m - 1) := by omega
    rw [Nat.testBit_and, Nat.testBit_succ, Nat.testBit_succ, h1, h2,
      ← Nat.testBit_and, Nat.testBit_succ, h3]

theorem land_odd (a : Nat) : (2 * a + 1) &&& (2 * a) = 2 * a := by
  apply Nat.eq_of_testBit_eq
  intro i
  cases i with
  | zero =>
    have e1 : (2 * a + 1) % 2 = 1 := by omega
    rw [Nat.testBit_and]
    simp [Nat.testBit_zero, e1]
  | succ i =>
    have h1 : (2 * a + 1) / 2 = a := by omega
    have h2 : 2 * a / 2 = a := by omega
    rw [Nat.testBit_and, Nat.testBit_succ, Nat.testBit_succ, h1, h2,
      Bool.and_self]

theorem pow_two_land_pred (k : Nat) : 2 ^ k &&& (2 ^ k - 1) = 0 := by
  rw [Nat.and_pow_two_sub_one_eq_mod]
  exact Nat.mod_self _

theorem land_pred_eq_zero_pow :
    ∀ n : Nat, 1 ≤ n → n &&& (n - 1) = 0 → ∃ k, n = 2 ^ k := by
  intro n
  induction n using Nat.strong_induction_on with
  | _ n ih =>
    intro hn h
    rcases Nat.even_or_odd n with he | hodd
    · obtain ⟨m, hm⟩ := he
      have hm2 : n = 2 * m := by omega
      have hm1 : 1 ≤ m := by omega
      rw [hm2, land_two_mul m hm1] at h
      have hz : m &&& (m - 1) = 0 := by omega
      obtain ⟨k, hk⟩ := ih m (by omega) hm1 hz
      refine ⟨k + 1, ?_⟩
      rw [hm2, hk]
      ring
    · obtain ⟨a, ha⟩ := hodd
      by_cases ha0 : a = 0
      · exact ⟨0, by omega⟩
      · exfalso
        have e : 2 * a + 1 - 1 = 2 * a := by omega
        rw [ha, e, land_odd a] at h
        omega

theorem jitterBufferNew_isSome_iff (c pf : Nat) :
    (jitterBufferNew c pf).isSome = true ↔ (c = 0 ∨ ∃ k, c = 2 ^ k) := by
  constructor
  · intro h
    by_cases hc : c = 0
    · exact Or.inl hc
    · right
      apply land_pred_eq_zero_pow c (by omega)
      by_contra hne
      have hb : ¬ ((c &&& (c - 1) == 0) = true) := by
        simpa using hne
      unfold jitterBufferNew at h
      rw [if_neg hb] at h
      simp at h
  · intro h
    have hz : c &&& (c - 1) = 0 := by
      rcases h with h | ⟨k, hk⟩
      · subst h
        rfl
      · subst hk
        exact pow_two_land_pred k
    unfold jitterBufferNew
    rw [if_pos (by simpa using hz)]
    rfl

theorem jitterBufferNew_some_shape (c pf : Nat) (buf : JitterBuffer)
    (h : jitterBufferNew c pf = some buf) :
    buf.capacity = c ∧ buf.origin = none ∧
    buf.packets = List.replicate c none ∧ buf.prefetch = pf := by
  unfold jitterBufferNew at h
  split at h
  · injection h with h
    rw [← h]
    exact ⟨rfl, rfl, rfl, rfl⟩
  · exact absurd h (by simp)

/-! ### The claims -/

set_option maxRecDepth 10000

/-- Claim C1, counterexample: for a fresh capacity-16 buffer with
prefetch 0, the arrival order 1,0,2,3 yields on the fourth add a frame
built from packets 1 and 2 only, not the frame of the in-order arrival:
packet 0 is not tolerated once packet 1 has established the origin. -/
theorem c1_reorder_counterexample :
    (buf16.addAll [pkt1, pkt0, pkt2, pkt3]).2 =
      [none, none, none, some frame12] ∧
    (buf16.addAll [pkt0, pkt1, pkt2, pkt3]).2 =
      [none, none, none, some frame012] ∧
    frame12 ≠ frame012 ∧
    frame12.data ≠ pkt0._data ++ pkt1._data ++ pkt2._data := by
  refine ⟨by decide, by decide, by decide, by decide⟩

/-- Claim C1, amended: in arrival order 1,0,2,3 on a fresh capacity-16
buffer with prefetch 0, packet 0 is dropped as a late arrival (the
second add returns nothing and leaves the state unchanged), and the
fourth add yields a frame whose data is the concatenation of the
payloads of packets 1 and 2 only, with timestamp 1000. -/
theorem c1_reorder_amended :
    (buf16.add pkt1).1.add pkt0 = ((buf16.add pkt1).1, none) ∧
    (buf16.addAll [pkt1, pkt0, pkt2, pkt3]).2 =
      [none, none, none, some frame12] ∧
    frame12.data = pkt1._data ++ pkt2._data ∧
    frame12.timestamp = 1000 ∧
    frame12.packets = [pkt1, pkt2] := by
  refine ⟨by decide, by decide, by decide, by decide, by decide⟩

/-- Claim C2, counterexample: with prefetch 1 the basic stream DOES
yield the first frame on the very add that brings packet 3: the check
frames >= prefetch passes as soon as one boundary is seen. -/
theorem c2_prefetch_counterexample :
    (buf16p1.addAll [pkt0, pkt1, pkt2, pkt3]).2 =
      [none, none, none, some frame012] := by
  decide

/-- Claim C2, amended: prefetch 1 behaves exactly like prefetch 0 on the
basic stream, yielding the first frame on the fourth add; only a
prefetch of at least 2 delays emission, and in that delayed case the
first frame packets stay in the buffer with the origin unchanged. -/
theorem c2_prefetch_amended :
    (buf16p1.addAll [pkt0, pkt1, pkt2, pkt3]).2 =
      [none, none, none, some frame012] ∧
    (buf16.addAll [pkt0, pkt1, pkt2, pkt3]).2 =
      [none, none, none, some frame012] ∧
    (buf16p2.addAll [pkt0, pkt1, pkt2, pkt3]).2 =
      [none, none, none, none] ∧
    (buf16p2.addAll [pkt0, pkt1, pkt2, pkt3]).1.packets.getD 0 none =
      some pkt0 ∧
    (buf16p2.addAll [pkt0, pkt1, pkt2, pkt3]).1.origin = some 0 := by
  refine ⟨by decide, by decide, by decide, by decide, by decide⟩

/-- Claim C3, counterexample: with the origin at 100 (past sequence
number 0), adding a packet with sequence number 0 returns nothing but
does NOT leave the state unchanged: 0 <= 100 - MAX_MISORDER triggers
the misorder flush, which clears the window and re-originates at 0. -/
theorem c3_late_drop_counterexample :
    (buf16.add pkt100).1.origin = some 100 ∧
    ((buf16.add pkt100).1.add pkt0).2 = none ∧
    ((buf16.add pkt100).1.add pkt0).1 ≠ (buf16.add pkt100).1 := by
  refine ⟨by decide, by decide, by decide⟩

/-- Claim C3, amended: for every buffer whose origin lies strictly
between 0 and MAX_MISORDER, adding a packet with sequence number 0
returns nothing and leaves the whole state unchanged. -/
theorem c3_late_drop_amended (buf : JitterBuffer) (o : Int) (p : RtpPacket)
    (ho : buf.origin = some o) (h1 : 0 < o) (h2 : o < MAX_MISORDER)
    (hseq : p.sequence_number = 0) :
    buf.add p = (buf, none) := by
  have hmm : MAX_MISORDER = 100 := rfl
  rw [hmm] at h2
  apply add_eq_drop buf p o ho
  · rw [hseq, hmm]
    omega
  · rw [hseq]
    omega

/-- Witness for the amended claim C3 at a concrete state with origin 1. -/
theorem c3_late_drop_amended_witness :
    (buf16.add pkt1).1.add pkt0 = ((buf16.add pkt1).1, none) :=
  c3_late_drop_amended (buf16.add pkt1).1 1 pkt0 (by decide) (by decide)
    (by decide) (by decide)

/-- Claim C4, counterexample: capacity 0 is not a power of two, yet
construction succeeds, because 0 AND (0 - 1) evaluates to 0 and passes
the assertion. -/
theorem c4_capacity_counterexample :
    (jitterBufferNew 0 0).isSome = true ∧
    ¬ ∃ k : Nat, (0 : Nat) = 2 ^ k := by
  constructor
  · rfl
  · rintro ⟨k, hk⟩
    exact (pow_pos (by norm_num : (0 : Nat) < 2) k).ne' hk.symm

/-- Claim C4, amended: construction succeeds exactly when the capacity
is zero or a power of two; every nonzero capacity that is not a power
of two fails; a successful construction has all slots empty, the origin
unset, and the given capacity and prefetch. -/
theorem c4_capacity_amended (c pf : Nat) :
    ((jitterBufferNew c pf).isSome = true ↔ (c = 0 ∨ ∃ k, c = 2 ^ k)) ∧
    ∀ buf, jitterBufferNew c pf = some buf →
      buf.capacity = c ∧ buf.origin = none ∧
      buf.packets = List.replicate c none ∧ buf.prefetch = pf :=
  ⟨jitterBufferNew_isSome_iff c pf,
   fun buf h => jitterBufferNew_some_shape c pf buf h⟩

/-- Witness for the amended claim C4 at capacity 16. -/
theorem c4_capacity_amended_witness :
    (jitterBufferNew 16 0).isSome = true ∧ buf16.capacity = 16 :=
  ⟨(c4_capacity_amended 16 0).1.mpr (Or.inr ⟨4, by norm_num⟩),
   ((c4_capacity_amended 16 0).2 buf16 (by decide)).1⟩

/-- Claim C5: in every reachable buffer state, every stored packet has
a sequence number inside the live window [origin, origin + capacity)
and sits at the slot indexed by its sequence number modulo the
capacity. -/
theorem c5_window_invariant (buf : JitterBuffer) (h : Reachable buf) :
    ∀ i p, buf.packets.getD i none = some p →
      ∃ o, buf.origin = some o ∧
        0 ≤ p.sequence_number - o ∧
        p.sequence_number - o < (buf.capacity : Int) ∧
        (i : Int) = p.sequence_number % (buf.capacity : Int) := by
  intro i p hget
  obtain ⟨o, ho, hlb, hub, hidx⟩ := (reachable_bufInv buf h).2 i p hget
  have hlen := (reachable_bufInv buf h).1
  have hlt := getD_some_lt_length hget
  have hcpos : 0 < buf.capacity := by omega
  have hc0 : ((buf.capacity : Int)) ≠ 0 := by
    exact_mod_cast Nat.pos_iff_ne_zero.mp hcpos
  have hnn : 0 ≤ p.sequence_number % (buf.capacity : Int) :=
    Int.emod_nonneg _ hc0
  exact ⟨o, ho, by omega, by omega, by omega⟩

/-- Witness for claim C5 at the reachable state reached by adding pkt0
to a fresh capacity-16 buffer, at slot 0. -/
theorem c5_window_invariant_witness :
    ∃ o, ((buf16.add pkt0).1).origin = some o ∧
      0 ≤ pkt0.sequence_number - o ∧
      pkt0.sequence_number - o < (((buf16.add pkt0).1).capacity : Int) ∧
      ((0 : Nat) : Int) =
        pkt0.sequence_number % (((buf16.add pkt0).1).capacity : Int) :=
  c5_window_invariant (buf16.add pkt0).1
    (Reachable.add buf16 pkt0 (Reachable.init 16 0 buf16 (by decide)))
    0 pkt0 (by decide)

/-- Claim C6, counterexample: on a capacity-8 buffer with origin 0 and
slots 0,2,3,4 filled, adding the packet with sequence 10 (delta 10 in
[8,16), so the claim predicts an origin advance of exactly
10 - 8 + 1 = 3) leaves the origin at 4, because the frame extraction
that runs in the same add call consumes one further slot. -/
theorem c6_eviction_counterexample :
    ((buf8.addAll [a0, a2, a3, a4]).1).origin = some 0 ∧
    a10.sequence_number - 0 - 8 + 1 = (3 : Int) ∧
    ((buf8.addAll [a0, a2, a3, a4]).1.add a10).1.origin = some 4 ∧
    ((buf8.addAll [a0, a2, a3, a4]).1.add a10).1.origin ≠
      some (0 + (3 : Int)) := by
  refine ⟨by decide, by decide, by decide, by decide⟩

/-- Claim C6, amended: the capacity-fitting eviction step of add (the
delta >= capacity branch, before the packet is stored and frame
extraction runs) advances the origin by exactly delta - capacity + 1,
clears exactly the slots of the delta - capacity + 1 oldest sequence
numbers, and touches no other slot; the subsequent extraction may
advance the origin further when a frame is emitted. -/
theorem c6_eviction_amended (buf : JitterBuffer) (o : Int) (p : RtpPacket)
    (ho : buf.origin = some o)
    (h1 : (buf.capacity : Int) ≤ p.sequence_number - o)
    (h2 : p.sequence_number - o < 2 * (buf.capacity : Int)) :
    (buf.fitPacket o p).origin =
      some (o + (p.sequence_number - o - (buf.capacity : Int) + 1)) ∧
    (∀ j : Nat, (j : Int) < p.sequence_number - o - (buf.capacity : Int) + 1 →
      (buf.fitPacket o p).packets.getD
        ((o + (j : Int)) % (buf.capacity : Int)).toNat none = none) ∧
    (∀ i : Nat, (∀ j : Nat,
        (j : Int) < p.sequence_number - o - (buf.capacity : Int) + 1 →
        i ≠ ((o + (j : Int)) % (buf.capacity : Int)).toNat) →
      (buf.fitPacket o p).packets.getD i none = buf.packets.getD i none) := by
  have hcast := Int.toNat_of_nonneg
    (a := p.sequence_number - o - (buf.capacity : Int) + 1) (by omega)
  rw [fitPacket_overflow buf o p h1 h2]
  refine ⟨?_, ?_, ?_⟩
  · rw [removeCore_origin buf _ o ho, hcast]
  · intro j hj
    apply removeCore_getD_cleared buf _ o j ho
    omega
  · intro i hi
    apply removeCore_getD_other buf _ o i ho
    intro j hj
    exact hi j (by omega)

/-- Witness for the amended claim C6: the eviction step on the concrete
capacity-8 scenario advances the origin from 0 to exactly 3. -/
theorem c6_eviction_amended_witness :
    (((buf8.addAll [a0, a2, a3, a4]).1).fitPacket 0 a10).origin =
      some (0 + (a10.sequence_number - 0 -
        (((buf8.addAll [a0, a2, a3, a4]).1).capacity : Int) + 1)) :=
  (c6_eviction_amended (buf8.addAll [a0, a2, a3, a4]).1 0 a10 (by decide)
    (by decide) (by decide)).1

/-- Claim C7: on a fresh capacity-16 buffer with prefetch 0, the first
three adds of the basic stream return nothing and the fourth returns
the frame whose data is the concatenation of the payloads of packets
0, 1 and 2 in order, with timestamp 1000 and ntp_timestamp and rtp_diff
copied from packet 0. -/
theorem c7_basic_assembly :
    (buf16.addAll [pkt0, pkt1, pkt2, pkt3]).2 =
      [none, none, none, some frame012] ∧
    frame012.data = pkt0._data ++ pkt1._data ++ pkt2._data ∧
    frame012.packets = [pkt0, pkt1, pkt2] ∧
    frame012.timestamp = 1000 ∧
    frame012.ntp_timestamp = pkt0.ntp_timestamp ∧
    frame012.rtp_diff = pkt0.rtp_diff := by
  refine ⟨by decide, by decide, by decide, by decide, by decide, by decide⟩

/-- Claim C8, gap stall. First the concrete scenario: adding packets
with sequence numbers 0, 1, 3 and 4, all sharing timestamp 1000, to a
fresh capacity-16 buffer with prefetch 0 yields a frame on none of the
four adds (the scan breaks at the empty slot 2), and afterwards - as
after every prefix of the stream - slot 2 is still empty and the
origin is still 0, so sequence number 2 is within the window. Second
the general bound: for every reachable buffer state, an add call that
emits a frame and leaves the origin at or before g never puts into
that frame a packet with sequence number beyond g: every packet of an
emitted frame has a sequence number strictly below the post-add
origin. -/
theorem c8_gap_stall :
    ((buf16.addAll [pkt0, pkt1, pkt3b, pkt4b]).2 =
        [none, none, none, none] ∧
      (buf16.addAll [pkt0, pkt1]).1.packets.getD 2 none = none ∧
      (buf16.addAll [pkt0, pkt1]).1.origin = some 0 ∧
      (buf16.addAll [pkt0, pkt1, pkt3b]).1.packets.getD 2 none = none ∧
      (buf16.addAll [pkt0, pkt1, pkt3b]).1.origin = some 0 ∧
      (buf16.addAll [pkt0, pkt1, pkt3b, pkt4b]).1.packets.getD 2 none =
        none ∧
      (buf16.addAll [pkt0, pkt1, pkt3b, pkt4b]).1.origin = some 0) ∧
    ∀ (buf : JitterBuffer) (p : RtpPacket) (g : Int) (b2 : JitterBuffer)
      (f : JitterFrame) (o2 : Int),
      Reachable buf → buf.add p = (b2, some f) → b2.origin = some o2 →
      o2 ≤ g → ∀ q ∈ f.packets, ¬ (g < q.sequence_number) := by
  constructor
  · refine ⟨by decide, by decide, by decide, by decide, by decide,
      by decide, by decide⟩
  · intro buf p g b2 f o2 hreach hadd ho2 hg
    obtain ⟨o3, ho3, hseq⟩ :=
      add_frame_window buf p (reachable_bufInv buf hreach) b2 f hadd
    rw [ho2] at ho3
    injection ho3 with ho3
    intro q hq
    have := hseq q hq
    omega

/-- Witness for claim C8, exercising the hypotheses of its general
part at a concrete emission: the frame emitted when pktB closes the
group of pkt0 contains no packet beyond g = 1. -/
theorem c8_gap_stall_witness :
    ¬ ((1 : Int) < pkt0.sequence_number) :=
  c8_gap_stall.2 (buf16.add pkt0).1 pktB 1 bufB frameB 1
    (Reachable.add buf16 pkt0 (Reachable.init 16 0 buf16 (by decide)))
    (by decide) (by decide) (by decide) pkt0 (by decide)

/-- Claim C9: two buffers built with the same power-of-two capacity but
prefetch 0 and prefetch 1 return the same frames on every add of any
packet list and end in the same state (same origin and slot contents):
the code compares frames + 1 against the prefetch, so both thresholds 0
and 1 pass at the first boundary. -/
theorem c9_prefetch01_equiv (c : Nat) (ps : List RtpPacket)
    (b0 b1 : JitterBuffer)
    (h0 : jitterBufferNew c 0 = some b0)
    (h1 : jitterBufferNew c 1 = some b1) :
    (b0.addAll ps).2 = (b1.addAll ps).2 ∧
    (b0.addAll ps).1.origin = (b1.addAll ps).1.origin ∧
    (b0.addAll ps).1.packets = (b1.addAll ps).1.packets := by
  obtain ⟨hc0, ho0, hp0, hpf0⟩ := jitterBufferNew_some_shape c 0 b0 h0
  obtain ⟨hc1, ho1, hp1, hpf1⟩ := jitterBufferNew_some_shape c 1 b1 h1
  have hsame : SameState b0 b1 :=
    ⟨by rw [hc0, hc1], by rw [ho0, ho1], by rw [hp0, hp1]⟩
  obtain ⟨hfr, hc2, ho2, hp2⟩ := sameState_addAll ps b0 b1 hsame
    (by rw [hpf0]; omega) (by rw [hpf1])
  exact ⟨hfr, ho2, hp2⟩

/-- Witness for claim C9 on the basic stream at capacity 16. -/
theorem c9_prefetch01_equiv_witness :
    (buf16.addAll [pkt0, pkt1, pkt2, pkt3]).2 =
      (buf16p1.addAll [pkt0, pkt1, pkt2, pkt3]).2 :=
  (c9_prefetch01_equiv 16 [pkt0, pkt1, pkt2, pkt3] buf16 buf16p1
    (by decide) (by decide)).1

/-- Claim C10: on a freshly constructed buffer (origin unset), remove
with any count between 1 and the capacity fails rather than acting as a
no-op; on any buffer whose origin is set, remove succeeds for every
count up to the capacity. -/
theorem c10_remove_requires_origin (buf bufO : JitterBuffer)
    (c pf n m : Nat) (hnew : jitterBufferNew c pf = some buf)
    (hn1 : 1 ≤ n) (hn2 : n ≤ buf.capacity)
    (hor : bufO.origin.isSome = true) (hm : m ≤ bufO.capacity) :
    buf.remove n = none ∧ (bufO.remove m).isSome = true := by
  constructor
  · obtain ⟨hc, ho, hp, hpf⟩ := jitterBufferNew_some_shape c pf buf hnew
    simp only [JitterBuffer.remove, if_pos hn2]
    rw [if_neg (by omega), ho]
  · simp only [JitterBuffer.remove, if_pos hm]
    by_cases hm0 : m = 0
    · rw [if_pos hm0]
      rfl
    · rw [if_neg hm0]
      cases ho : bufO.origin with
      | none =>
        rw [ho] at hor
        simp at hor
      | some o =>
        rfl

/-- Witness for claim C10: a fresh capacity-16 buffer rejects remove 1,
and after one add the same call succeeds. -/
theorem c10_remove_requires_origin_witness :
    buf16.remove 1 = none ∧ (((buf16.add pkt0).1).remove 1).isSome = true :=
  c10_remove_requires_origin buf16 (buf16.add pkt0).1 16 0 1 1 (by decide)
    (by decide) (by decide) (by decide) (by decide)
